import Mathlib

/-!
Verification of the Smart Health Monitoring Dashboard data pipeline
(`MyWebProject.py`): synthetic-data join, risk derivation, filtering,
aggregation and CSV export, shallowly embedded as Lean functions.

Conventions of the embedding:
* a pandas DataFrame row becomes a structure, a DataFrame a `List` of rows;
* dates are day numbers (`Int`), so `pd.to_datetime` comparisons become
  integer comparisons;
* floats (`pH`, `Turbidity`, means) become `ℚ`;
* the `Symptoms` cell holds the comma-joined string built at generation
  time (line 20 of the source); we keep the underlying list of symptom
  names in the record and rebuild the cell string with `symptomsStr`;
* `df.groupby('Location')` (default `sort=True`) enumerates the distinct
  keys in ascending order, embedded with `List.dedup` + `List.mergeSort`;
* `df.to_csv(index=False)` uses the csv module's QUOTE_MINIMAL rule:
  a cell is quoted iff it contains the delimiter, the quote char, CR or
  LF, and quote chars inside a quoted cell are doubled.
-/

namespace SmartHealth

/-- Symptom vocabulary, line 14 of the source. -/
def symptoms_list : List String := ["Diarrhea", "Fever", "Vomiting", "Stomach Pain", "Hepatitis"]

/-- Village list, line 13 of the source. -/
def villages : List String := ["Tripura", "Assam", "Megalaya", "Manipur", "sikkim"]

/-- One row of `health_df` (columns Patient_ID, Age, Symptoms, Location, Date).
`symptoms` keeps the list of names drawn by the generator; the DataFrame cell
is their comma-join, rebuilt by `symptomsStr`. -/
structure HealthRecord where
  patient_id : Nat
  age : Nat
  symptoms : List String
  location : String
  date : Int
  deriving Repr, DecidableEq

/-- One row of `water_df` (columns Location, pH, Turbidity, Bacterial_Count). -/
structure WaterSample where
  location : String
  ph : ℚ
  turbidity : ℚ
  bacterial_count : Nat
  deriving Repr, DecidableEq

/-- One row of the merged `data` DataFrame, including the derived `Risk`
column (0 or 1, as in the source's integer lambda). -/
structure JoinedRecord where
  patient_id : Nat
  age : Nat
  symptoms : List String
  location : String
  date : Int
  ph : ℚ
  turbidity : ℚ
  bacterial_count : Nat
  risk : Nat
  deriving Repr, DecidableEq

/-- The string stored in the `Symptoms` cell: `','.join(symptoms)` (line 20). -/
def symptomsStr (symptoms : List String) : String :=
  String.intercalate "," symptoms

/-- Python's `pat in s` on strings: substring containment. -/
def pyInStr (pat s : String) : Prop :=
  pat.toList <:+: s.toList

instance (pat s : String) : Decidable (pyInStr pat s) :=
  List.decidableInfix pat.toList s.toList

/-- Line 42: `1 if 'Diarrhea' in x['Symptoms'] or x['Bacterial_Count'] > 300 else 0`.
Note the membership test is a *substring* test on the comma-joined cell. -/
def riskVal (r : JoinedRecord) : Nat :=
  if pyInStr "Diarrhea" (symptomsStr r.symptoms) ∨ 300 < r.bacterial_count then 1 else 0

/-- A merged row before the `Risk` column exists; the column is filled by
`addRisk`, so `mergeRow` leaves the placeholder 0. -/
def mergeRow (h : HealthRecord) (w : WaterSample) : JoinedRecord :=
  ⟨h.patient_id, h.age, h.symptoms, h.location, h.date, w.ph, w.turbidity, w.bacterial_count, 0⟩

/-- Line 41: `pd.merge(health_df, water_df, on='Location')`. An inner
equijoin: for each left row in order, one output row per right row with an
equal key, in right order (pandas preserves the order of the left keys and
performs no duplicate-key validation). -/
def pd_merge (hs : List HealthRecord) (ws : List WaterSample) : List JoinedRecord :=
  hs.flatMap fun h => (ws.filter fun w => w.location == h.location).map (mergeRow h)

/-- Line 42: `data['Risk'] = data.apply(lambda ..., axis=1)`. -/
def addRisk (rows : List JoinedRecord) : List JoinedRecord :=
  rows.map fun r => { r with risk := riskVal r }

/-- The canonical `data` DataFrame built at startup (lines 41-42). -/
def makeData (hs : List HealthRecord) (ws : List WaterSample) : List JoinedRecord :=
  addRisk (pd_merge hs ws)

/-- Lines 92-97, `filter_data`: location exact-match unless the wildcard
`'All'` is selected, then an inclusive date-range filter. -/
def filter_data (data : List JoinedRecord) (selected_village : String)
    (start_date end_date : Int) : List JoinedRecord :=
  let df := if selected_village ≠ "All" then data.filter (fun r => r.location == selected_village)
            else data
  df.filter fun r => decide (start_date ≤ r.date) && decide (r.date ≤ end_date)

/-- One row of the `summary` DataFrame (lines 170-175). -/
structure SummaryRow where
  location : String
  total_cases : Nat
  high_risk_cases : Nat
  avg_bacterial_count : ℚ
  avg_ph : ℚ
  deriving Repr, DecidableEq

/-- The distinct group keys that `df.groupby('Location')` enumerates, in
its default ascending sorted order. -/
def groupKeys (rows : List JoinedRecord) : List String :=
  ((rows.map (·.location)).dedup).mergeSort

/-- The rows of the group with key `loc`. -/
def groupRows (rows : List JoinedRecord) (loc : String) : List JoinedRecord :=
  rows.filter fun r => r.location == loc

/-- Lines 170-175 (and identically 133-138): `df.groupby('Location').agg(
Total_Cases=('Patient_ID','count'), High_Risk_Cases=('Risk','sum'),
Avg_Bacterial_Count=('Bacterial_Count','mean'), Avg_pH=('pH','mean'))`. -/
def aggregate (rows : List JoinedRecord) : List SummaryRow :=
  (groupKeys rows).map fun loc =>
    let g := groupRows rows loc
    { location := loc
      total_cases := g.length
      high_risk_cases := (g.map (·.risk)).sum
      avg_bacterial_count := ((g.map (·.bacterial_count)).sum : ℚ) / (g.length : ℚ)
      avg_ph := (g.map (·.ph)).sum / (g.length : ℚ) }

/-! ### Helper lemmas about the filter -/

/-- Membership characterisation of `filter_data`: a row passes iff it is in
the dataset, matches the village (or the wildcard `'All'` is selected) and
its date lies inclusively between the bounds. -/
theorem mem_filter_data_iff (data : List JoinedRecord) (loc : String)
    (sd ed : Int) (r : JoinedRecord) :
    r ∈ filter_data data loc sd ed ↔
      r ∈ data ∧ (loc = "All" ∨ r.location = loc) ∧ sd ≤ r.date ∧ r.date ≤ ed := by
  by_cases h : loc = "All"
  · subst h
    simp [filter_data, List.mem_filter]
  · simp only [filter_data, if_pos h, ne_eq, h, not_false_iff, if_true,
      List.mem_filter, Bool.and_eq_true, decide_eq_true_eq, beq_iff_eq]
    constructor
    · rintro ⟨⟨hmem, hloc⟩, hd1, hd2⟩
      exact ⟨hmem, Or.inr hloc, hd1, hd2⟩
    · rintro ⟨hmem, hloc | hloc, hd1, hd2⟩
      · exact hloc.elim
      · exact ⟨⟨hmem, hloc⟩, hd1, hd2⟩

/-- The filter's output is a sublist of its input. -/
theorem filter_data_sublist_aux (data : List JoinedRecord) (loc : String)
    (sd ed : Int) : List.Sublist (filter_data data loc sd ed) data := by
  unfold filter_data
  by_cases h : loc = "All"
  · simp only [h, ne_eq, not_true_eq_false, if_false]
    exact List.filter_sublist data
  · simp only [ne_eq, h, not_false_iff, if_true]
    exact (List.filter_sublist _).trans (List.filter_sublist data)

/-! ### Claim theorems for the Filter Engine -/

/-- C2. For every dataset and every filter request, `filter_data` keeps
exactly the records whose location matches (or all of them when `'All'` is
selected) and whose date lies in the inclusive range; the boundary cases of
the claim (`start_date = end_date = observed_date` included, `start_date`
one day past the date excluded) are instances of the right-hand side. -/
theorem filter_matches_exactly (data : List JoinedRecord) (loc : String)
    (sd ed : Int) (r : JoinedRecord) :
    r ∈ filter_data data loc sd ed ↔
      r ∈ data ∧ (loc = "All" ∨ r.location = loc) ∧ sd ≤ r.date ∧ r.date ≤ ed :=
  mem_filter_data_iff data loc sd ed r

/-- C9. The filter's output is a subsequence of the input dataset: it keeps
the dataset's insertion order and never reorders records. -/
theorem filter_preserves_order (data : List JoinedRecord) (loc : String)
    (sd ed : Int) : List.Sublist (filter_data data loc sd ed) data :=
  filter_data_sublist_aux data loc sd ed

/-! ### Helper lemmas about the join -/

/-- Rows of the merged frame are exactly the matched pairs. -/
theorem mem_pd_merge (hs : List HealthRecord) (ws : List WaterSample)
    (r : JoinedRecord) :
    r ∈ pd_merge hs ws ↔
      ∃ h ∈ hs, ∃ w ∈ ws, w.location = h.location ∧ r = mergeRow h w := by
  unfold pd_merge
  rw [List.mem_flatMap]
  constructor
  · rintro ⟨h, hh, hr⟩
    obtain ⟨w, hw, rfl⟩ := List.mem_map.mp hr
    obtain ⟨hw1, hw2⟩ := List.mem_filter.mp hw
    exact ⟨h, hh, w, hw1, by simpa using hw2, rfl⟩
  · rintro ⟨h, hh, w, hw, hwl, rfl⟩
    exact ⟨h, hh, List.mem_map_of_mem _ (List.mem_filter.mpr ⟨hw, by simpa using hwl⟩)⟩

/-- Health records with no matching water sample contribute nothing. -/
theorem pd_merge_drops_unmatched (hs : List HealthRecord) (ws : List WaterSample) :
    pd_merge hs ws =
      pd_merge (hs.filter fun h => ws.any fun w => w.location == h.location) ws := by
  induction hs with
  | nil => rfl
  | cons h t ih =>
    by_cases hm : (ws.any fun w => w.location == h.location) = true
    · simp only [pd_merge, List.flatMap_cons, List.filter_cons, hm, if_true] at ih ⊢
      rw [ih]
    · have hnil : (ws.filter fun w => w.location == h.location) = [] := by
        rw [List.filter_eq_nil_iff]
        intro w hw hb
        exact hm (List.any_eq_true.mpr ⟨w, hw, hb⟩)
      simp only [pd_merge, List.flatMap_cons, List.filter_cons, hm, if_false, hnil,
        List.map_nil, List.nil_append] at ih ⊢
      exact ih

/-! ### Claim theorems for the Joiner -/

/-- C3 counterexample. With two water samples sharing location `"A"`,
`pd.merge` raises nothing: the pipeline produces an output frame, with the
single health record duplicated once per sample (length 2, one row carrying
each sample's metrics), refuting the claim that the join fails with a
`SchemaError` on duplicate join keys. -/
theorem join_duplicate_location_counterexample :
    makeData [⟨1, 30, ["Fever"], "A", 0⟩]
        [⟨"A", 7, 10, 100⟩, ⟨"A", 8, 20, 400⟩] =
      [⟨1, 30, ["Fever"], "A", 0, 7, 10, 100, 0⟩,
       ⟨1, 30, ["Fever"], "A", 0, 8, 20, 400, 1⟩] := by decide

/-- C3 amended. The join performs no duplicate-key validation and never
fails: it is total, and the output has exactly one row per (health record,
water sample) pair with equal location — so duplicate water-sample
locations duplicate health records instead of raising `SchemaError`. -/
theorem join_no_duplicate_validation (hs : List HealthRecord) (ws : List WaterSample) :
    (makeData hs ws).length =
      (hs.map fun h => (ws.filter fun w => w.location == h.location).length).sum := by
  unfold makeData addRisk
  rw [List.length_map]
  induction hs with
  | nil => rfl
  | cons h t ih =>
    simp only [pd_merge, List.flatMap_cons, List.length_append, List.length_map,
      List.map_cons, List.sum_cons] at ih ⊢
    rw [ih]

/-- C5. Every joined record's location comes with the water metrics of a
sample of that location, and health records whose location matches no water
sample are silently dropped (removing them first changes nothing). -/
theorem join_inner_invariant (hs : List HealthRecord) (ws : List WaterSample) :
    (∀ r ∈ makeData hs ws,
      ∃ w ∈ ws, w.location = r.location ∧ r.ph = w.ph ∧ r.turbidity = w.turbidity ∧
        r.bacterial_count = w.bacterial_count) ∧
    makeData hs ws =
      makeData (hs.filter fun h => ws.any fun w => w.location == h.location) ws := by
  constructor
  · intro r hr
    simp only [makeData, addRisk, List.mem_map] at hr
    obtain ⟨m, hm, rfl⟩ := hr
    obtain ⟨h, _, w, hw, hwl, rfl⟩ := (mem_pd_merge hs ws m).mp hm
    exact ⟨w, hw, by simp [mergeRow, hwl]⟩
  · unfold makeData
    rw [pd_merge_drops_unmatched]

/-! ### The risk rule -/

/-- Over the generator's vocabulary no symptom name contains `"Diarrhea"`
except `"Diarrhea"` itself and the join separator is a comma, so for the
1-2 symptoms the generator draws, the source's substring test on the
comma-joined cell agrees with membership in the symptom list. -/
theorem diarrhea_infix_iff (l : List String) (h2 : l.length ≤ 2)
    (hv : ∀ s ∈ l, s ∈ symptoms_list) :
    pyInStr "Diarrhea" (symptomsStr l) ↔ "Diarrhea" ∈ l := by
  rcases l with _ | ⟨a, _ | ⟨b, _ | ⟨c, t⟩⟩⟩
  · decide
  · have ha : a = "Diarrhea" ∨ a = "Fever" ∨ a = "Vomiting" ∨ a = "Stomach Pain" ∨
        a = "Hepatitis" := by
      simpa [symptoms_list] using hv a (by simp)
    rcases ha with rfl | rfl | rfl | rfl | rfl <;> decide
  · have ha : a = "Diarrhea" ∨ a = "Fever" ∨ a = "Vomiting" ∨ a = "Stomach Pain" ∨
        a = "Hepatitis" := by
      simpa [symptoms_list] using hv a (by simp)
    have hb : b = "Diarrhea" ∨ b = "Fever" ∨ b = "Vomiting" ∨ b = "Stomach Pain" ∨
        b = "Hepatitis" := by
      simpa [symptoms_list] using hv b (by simp)
    rcases ha with rfl | rfl | rfl | rfl | rfl <;>
      rcases hb with rfl | rfl | rfl | rfl | rfl <;> decide
  · simp at h2

/-- Concrete startup data used by the witnesses below. -/
def sampleHealth : List HealthRecord :=
  [⟨1, 25, ["Diarrhea", "Fever"], "Assam", 3⟩,
   ⟨2, 40, ["Vomiting"], "Tripura", 5⟩,
   ⟨3, 33, ["Fever"], "Assam", 4⟩]

/-- Concrete water samples used by the witnesses below. -/
def sampleWater : List WaterSample :=
  [⟨"Assam", 7, 12, 350⟩, ⟨"Tripura", 8, 5, 100⟩]

/-! ### Claim theorem for the Risk Classifier -/

/-- C1. A joined record's Risk flag is 1 exactly when `"Diarrhea"` is one
of its symptoms or its Bacterial_Count exceeds 300. (The source tests
`'Diarrhea' in x['Symptoms']` on the comma-joined cell, which coincides
with list membership for the 1-2 vocabulary symptoms a record carries.) -/
theorem risk_flag_rule (hs : List HealthRecord) (ws : List WaterSample)
    (r : JoinedRecord) (hmem : r ∈ makeData hs ws)
    (h2 : r.symptoms.length ≤ 2)
    (hv : ∀ s ∈ r.symptoms, s ∈ symptoms_list) :
    r.risk = 1 ↔ ("Diarrhea" ∈ r.symptoms ∨ 300 < r.bacterial_count) := by
  simp only [makeData, addRisk, List.mem_map] at hmem
  obtain ⟨m, hm, rfl⟩ := hmem
  show riskVal m = 1 ↔ ("Diarrhea" ∈ m.symptoms ∨ 300 < m.bacterial_count)
  unfold riskVal
  by_cases hc : pyInStr "Diarrhea" (symptomsStr m.symptoms) ∨ 300 < m.bacterial_count
  · rw [if_pos hc]
    simp only [true_iff]
    rcases hc with hc | hc
    · exact Or.inl ((diarrhea_infix_iff m.symptoms h2 hv).mp hc)
    · exact Or.inr hc
  · rw [if_neg hc]
    constructor
    · intro h01
      exact absurd h01 (by decide)
    · intro hd
      exfalso
      apply hc
      rcases hd with hd | hd
      · exact Or.inl ((diarrhea_infix_iff m.symptoms h2 hv).mpr hd)
      · exact Or.inr hd

/-- Witness for C1 at a concrete joined record of the sample data. -/
theorem risk_flag_rule_witness :
    (⟨1, 25, ["Diarrhea", "Fever"], "Assam", 3, 7, 12, 350, 1⟩ : JoinedRecord).risk = 1 ↔
      ("Diarrhea" ∈ (⟨1, 25, ["Diarrhea", "Fever"], "Assam", 3, 7, 12, 350, 1⟩ :
          JoinedRecord).symptoms ∨
        300 < (⟨1, 25, ["Diarrhea", "Fever"], "Assam", 3, 7, 12, 350, 1⟩ :
          JoinedRecord).bacterial_count) :=
  risk_flag_rule sampleHealth sampleWater _ (by decide) (by decide) (by decide)

/-! ### Helper lemmas about the aggregation -/

/-- The locations of the summary rows are exactly the group keys. -/
theorem aggregate_locations (rows : List JoinedRecord) :
    (aggregate rows).map (·.location) = groupKeys rows := by
  unfold aggregate
  rw [List.map_map]
  calc List.map _ (groupKeys rows)
      = List.map id (groupKeys rows) := List.map_congr_left fun loc _ => rfl
    _ = groupKeys rows := List.map_id _

/-- A string is a group key iff it occurs as a location in the input. -/
theorem mem_groupKeys (rows : List JoinedRecord) (loc : String) :
    loc ∈ groupKeys rows ↔ loc ∈ rows.map (·.location) := by
  unfold groupKeys
  rw [List.mem_mergeSort]
  exact List.mem_dedup

/-- The group keys are distinct. -/
theorem groupKeys_nodup (rows : List JoinedRecord) : (groupKeys rows).Nodup :=
  ((List.mergeSort_perm _ _).nodup_iff).mpr (List.nodup_dedup _)

/-- The size of the group of `loc` counts the occurrences of `loc` among
the input's locations. -/
theorem groupRows_length (rows : List JoinedRecord) (loc : String) :
    (groupRows rows loc).length = (rows.map (·.location)).count loc := by
  unfold groupRows
  rw [← List.countP_eq_length_filter, List.count_eq_countP, List.countP_map]
  rfl

/-- Group sizes over the distinct keys add up to the input length. -/
theorem sum_total_cases (rows : List JoinedRecord) :
    ((aggregate rows).map (·.total_cases)).sum = rows.length := by
  have hmap : (aggregate rows).map (·.total_cases) =
      (groupKeys rows).map fun loc => (groupRows rows loc).length := by
    unfold aggregate
    rw [List.map_map]
    exact List.map_congr_left fun loc _ => rfl
  have hperm : List.Perm ((groupKeys rows).map fun loc => (groupRows rows loc).length)
      (((rows.map (·.location)).dedup).map fun loc => (groupRows rows loc).length) :=
    (List.mergeSort_perm _ _).map _
  have hcongr : (((rows.map (·.location)).dedup).map fun loc => (groupRows rows loc).length) =
      (((rows.map (·.location)).dedup).map fun loc => (rows.map (·.location)).count loc) :=
    List.map_congr_left fun loc _ => groupRows_length rows loc
  rw [hmap, hperm.sum_eq, hcongr, List.sum_map_count_dedup_eq_length]
  exact List.length_map _ _

/-- Sum of a list of naturals each at most 1 counts its ones (the Risk
column is 0/1, so `('Risk','sum')` counts the flagged records). -/
theorem sum_of_le_one_counts_ones (l : List Nat) (h : ∀ n ∈ l, n ≤ 1) :
    l.sum = (l.filter fun n => n == 1).length := by
  induction l with
  | nil => rfl
  | cons a t ih =>
    have ha : a ≤ 1 := h a (List.mem_cons_self a t)
    have ht := ih fun n hn => h n (List.mem_cons_of_mem a hn)
    rw [List.sum_cons, List.filter_cons, ht]
    interval_cases a
    · simp
    · simp [Nat.add_comm]

/-! ### Claim theorems for the Aggregator -/

/-- C4. Aggregation yields exactly one row per distinct location present in
the filtered input (absent locations yield no row), with Total_Cases the
group size, High_Risk_Cases the number of risk-flagged records (the 0/1
Risk column is summed), and the averages the arithmetic means over the
group. The hypothesis that every Risk value is 0 or 1 holds for any rows
coming from the pipeline's classifier. -/
theorem aggregate_groupwise_correct (rows : List JoinedRecord)
    (hr : ∀ r ∈ rows, r.risk ≤ 1) :
    ((aggregate rows).map (·.location)).Nodup ∧
    (∀ loc : String, loc ∈ (aggregate rows).map (·.location) ↔ loc ∈ rows.map (·.location)) ∧
    (∀ s ∈ aggregate rows,
      s.total_cases = (groupRows rows s.location).length ∧
      s.high_risk_cases = ((groupRows rows s.location).filter fun r => r.risk == 1).length ∧
      s.avg_bacterial_count =
        (((groupRows rows s.location).map (·.bacterial_count)).sum : ℚ) /
          ((groupRows rows s.location).length : ℚ) ∧
      s.avg_ph = ((groupRows rows s.location).map (·.ph)).sum /
          ((groupRows rows s.location).length : ℚ)) := by
  refine ⟨?_, ?_, ?_⟩
  · rw [aggregate_locations]
    exact groupKeys_nodup rows
  · intro loc
    rw [aggregate_locations]
    exact mem_groupKeys rows loc
  · intro s hs
    obtain ⟨loc, hloc, rfl⟩ := List.mem_map.mp hs
    refine ⟨rfl, ?_, rfl, rfl⟩
    show ((groupRows rows loc).map (·.risk)).sum = _
    have hle : ∀ n ∈ (groupRows rows loc).map (·.risk), n ≤ 1 := by
      intro n hn
      obtain ⟨r, hrg, rfl⟩ := List.mem_map.mp hn
      exact hr r (List.mem_filter.mp hrg).1
    rw [sum_of_le_one_counts_ones _ hle, ← List.countP_eq_length_filter,
      List.countP_map, ← List.countP_eq_length_filter]
    rfl

/-- C6. Summing Total_Cases over the rows of
`aggregate (filter_data data req)` gives the number of filtered records. -/
theorem aggregate_filter_total_cases (data : List JoinedRecord) (loc : String)
    (sd ed : Int) :
    ((aggregate (filter_data data loc sd ed)).map (·.total_cases)).sum =
      (filter_data data loc sd ed).length :=
  sum_total_cases _

/-- C10. The summary rows come out in strictly ascending lexicographic
order of the location string (the `groupby` default), and their locations
are a permutation of the distinct input locations — so the order is the
sorted one, not the order of first appearance in the input. -/
theorem aggregate_rows_sorted (rows : List JoinedRecord) :
    List.Sorted (· < ·) ((aggregate rows).map (·.location)) ∧
    List.Perm ((aggregate rows).map (·.location)) ((rows.map (·.location)).dedup) := by
  rw [aggregate_locations]
  refine ⟨?_, List.mergeSort_perm _ _⟩
  exact (List.sorted_mergeSort' _).lt_of_le (groupKeys_nodup rows)

/-- Witness for C4 on the sample data: the membership part at `"Assam"`,
with the 0/1-Risk hypothesis checked by evaluation. -/
theorem aggregate_groupwise_correct_witness :
    "Assam" ∈ ((aggregate (makeData sampleHealth sampleWater)).map (·.location)) ↔
      "Assam" ∈ ((makeData sampleHealth sampleWater).map (·.location)) :=
  (aggregate_groupwise_correct (makeData sampleHealth sampleWater) (by decide)).2.1 "Assam"

/-! ### The CSV exporter

`df.to_csv(index=False)` (lines 158 and 176) writes through Python's csv
module with its default QUOTE_MINIMAL dialect: a cell is written verbatim
unless it contains the delimiter `,`, the quote char `"`, CR or LF, in
which case it is wrapped in quotes with inner quotes doubled. We embed the
writer over `List Char` and pair it with an RFC-4180 reading automaton to
settle the round-trip claim. -/

/-- Chars that force quoting under QUOTE_MINIMAL. -/
def csvSpecialChar (c : Char) : Bool :=
  c == ',' || c == '\"' || c == '\n' || c == '\r'

/-- Double every quote char (the csv module's in-quote escaping). -/
def escapeQuotes (cs : List Char) : List Char :=
  cs.flatMap fun c => if c = '\"' then ['\"', '\"'] else [c]

/-- Serialize one cell under QUOTE_MINIMAL. -/
def quoteFieldCh (f : List Char) : List Char :=
  if f.any csvSpecialChar then '\"' :: (escapeQuotes f ++ ['\"']) else f

/-- Serialize one row: cells joined by commas, terminated by a newline. -/
def lineCh : List (List Char) → List Char
  | [] => ['\n']
  | [f] => quoteFieldCh f ++ ['\n']
  | f :: g :: rest => quoteFieldCh f ++ ',' :: lineCh (g :: rest)

/-- Serialize a table: the concatenation of its rows' lines. -/
def docCh (rows : List (List (List Char))) : List Char :=
  (rows.map lineCh).flatten

/-- The whole CSV document of a table of string cells. -/
def csvTable (rows : List (List String)) : String :=
  (docCh (rows.map fun row => row.map String.toList)).asString

/-- Decimal rendering of the rational cells; exact values render as
pandas renders the corresponding floats for the generated data. -/
def ratStr (q : ℚ) : String :=
  if q.den = 1 then toString q.num else toString q.num ++ "/" ++ toString q.den

/-- The cells of one raw-export row, in the frame's column order. -/
def recordFields (r : JoinedRecord) : List String :=
  [toString r.patient_id, toString r.age, symptomsStr r.symptoms, r.location,
   toString r.date, ratStr r.ph, ratStr r.turbidity, toString r.bacterial_count,
   toString r.risk]

/-- Column header of the raw export (line 158, `index=False`). -/
def rawHeader : List String :=
  ["Patient_ID", "Age", "Symptoms", "Location", "Date", "pH", "Turbidity",
   "Bacterial_Count", "Risk"]

/-- Lines 156-158, `download_raw`: the filtered frame as CSV. -/
def to_csv_raw (df : List JoinedRecord) : String :=
  csvTable (rawHeader :: df.map recordFields)

/-- Reading automaton modes: outside quotes, inside quotes, or just after
a quote char inside a quoted cell. -/
inductive CsvMode where
  | normal
  | quoted
  | quoteEnd
  deriving Repr, DecidableEq

/-- Reading automaton state: finished rows, finished cells of the current
row, chars of the current cell, and the mode. -/
structure CsvState where
  rows : List (List String)
  fields : List String
  cur : List Char
  mode : CsvMode
  deriving Repr, DecidableEq

/-- One step of the RFC-4180 reader. -/
def csvStep (st : CsvState) (c : Char) : CsvState :=
  match st.mode with
  | CsvMode.normal =>
    if c = ',' then { st with fields := st.fields ++ [st.cur.asString], cur := [] }
    else if c = '\n' then
      { rows := st.rows ++ [st.fields ++ [st.cur.asString]], fields := [], cur := [],
        mode := CsvMode.normal }
    else if c = '\"' ∧ st.cur = [] then { st with mode := CsvMode.quoted }
    else { st with cur := st.cur ++ [c] }
  | CsvMode.quoted =>
    if c = '\"' then { st with mode := CsvMode.quoteEnd }
    else { st with cur := st.cur ++ [c] }
  | CsvMode.quoteEnd =>
    if c = '\"' then { st with cur := st.cur ++ ['\"'], mode := CsvMode.quoted }
    else if c = ',' then
      { st with fields := st.fields ++ [st.cur.asString], cur := [], mode := CsvMode.normal }
    else if c = '\n' then
      { rows := st.rows ++ [st.fields ++ [st.cur.asString]], fields := [], cur := [],
        mode := CsvMode.normal }
    else { st with cur := st.cur ++ [c], mode := CsvMode.normal }

/-- Initial reader state. -/
def csvInit : CsvState := ⟨[], [], [], CsvMode.normal⟩

/-- Emit the reader's final state: a pending cell or row is flushed. -/
def finishCsv (st : CsvState) : List (List String) :=
  if st.fields = [] ∧ st.cur = [] then st.rows
  else st.rows ++ [st.fields ++ [st.cur.asString]]

/-- Parse a CSV document into its rows of cells. -/
def parseCsv (s : String) : List (List String) :=
  finishCsv (s.toList.foldl csvStep csvInit)

/-! ### Round-trip lemmas for the CSV reader -/

/-- Ordinary chars in `normal` mode just accumulate into the current cell. -/
theorem foldl_step_normal (cs : List Char)
    (h : ∀ c ∈ cs, c ≠ ',' ∧ c ≠ '\"' ∧ c ≠ '\n')
    (rows : List (List String)) (fs : List String) (cur : List Char) :
    cs.foldl csvStep ⟨rows, fs, cur, CsvMode.normal⟩ =
      ⟨rows, fs, cur ++ cs, CsvMode.normal⟩ := by
  induction cs generalizing cur with
  | nil => simp
  | cons c t ih =>
    obtain ⟨hc1, hc2, hc3⟩ := h c (List.mem_cons_self c t)
    have hstep : csvStep ⟨rows, fs, cur, CsvMode.normal⟩ c =
        ⟨rows, fs, cur ++ [c], CsvMode.normal⟩ := by
      simp [csvStep, hc1, hc2, hc3]
    rw [List.foldl_cons, hstep, ih (fun d hd => h d (List.mem_cons_of_mem c hd))]
    simp

/-- Non-quote chars in `quoted` mode accumulate into the current cell. -/
theorem foldl_step_quoted (cs : List Char) (h : ∀ c ∈ cs, c ≠ '\"')
    (rows : List (List String)) (fs : List String) (cur : List Char) :
    cs.foldl csvStep ⟨rows, fs, cur, CsvMode.quoted⟩ =
      ⟨rows, fs, cur ++ cs, CsvMode.quoted⟩ := by
  induction cs generalizing cur with
  | nil => simp
  | cons c t ih =>
    have hstep : csvStep ⟨rows, fs, cur, CsvMode.quoted⟩ c =
        ⟨rows, fs, cur ++ [c], CsvMode.quoted⟩ := by
      simp [csvStep, h c (List.mem_cons_self c t)]
    rw [List.foldl_cons, hstep, ih (fun d hd => h d (List.mem_cons_of_mem c hd))]
    simp

/-- Escaping is the identity on quote-free cells. -/
theorem escapeQuotes_of_clean (f : List Char) (h : ∀ c ∈ f, c ≠ '\"') :
    escapeQuotes f = f := by
  induction f with
  | nil => rfl
  | cons c t ih =>
    have hc := h c (List.mem_cons_self c t)
    simp only [escapeQuotes, List.flatMap_cons, if_neg hc]
    rw [show t.flatMap _ = escapeQuotes t from rfl,
      ih fun d hd => h d (List.mem_cons_of_mem c hd)]
    rfl

/-- Reading back one serialized cell from a fresh cell position recovers
exactly its chars, ending in `normal` mode if the cell was unquoted and in
`quoteEnd` mode if it was quoted. -/
theorem foldl_quoteField (f : List Char)
    (h : ∀ c ∈ f, c ≠ '\"' ∧ c ≠ '\n' ∧ c ≠ '\r')
    (rows : List (List String)) (fs : List String) :
    (quoteFieldCh f).foldl csvStep ⟨rows, fs, [], CsvMode.normal⟩ =
      ⟨rows, fs, f,
        if f.any csvSpecialChar then CsvMode.quoteEnd else CsvMode.normal⟩ := by
  by_cases hq : f.any csvSpecialChar
  · rw [quoteFieldCh, if_pos hq, if_pos hq,
      escapeQuotes_of_clean f fun c hc => (h c hc).1]
    rw [List.foldl_cons]
    have h1 : csvStep ⟨rows, fs, [], CsvMode.normal⟩ '\"' =
        ⟨rows, fs, [], CsvMode.quoted⟩ := by
      simp [csvStep]
    rw [h1, List.foldl_append, foldl_step_quoted f (fun c hc => (h c hc).1)]
    simp [csvStep]
  · rw [quoteFieldCh, if_neg hq, if_neg hq]
    apply foldl_step_normal
    intro c hc
    have hns : ¬ csvSpecialChar c = true := by
      intro hcs
      exact hq (List.any_eq_true.mpr ⟨c, hc, hcs⟩)
    simp only [csvSpecialChar, Bool.or_eq_true, beq_iff_eq, not_or] at hns
    refine ⟨?_, (h c hc).1, (h c hc).2.1⟩
    tauto

/-- Reading back one serialized row appends that row, with the reader back
at a fresh row in `normal` mode. -/
theorem foldl_lineCh (fields : List (List Char)) (f0 : List Char)
    (h : ∀ f ∈ f0 :: fields, ∀ c ∈ f, c ≠ '\"' ∧ c ≠ '\n' ∧ c ≠ '\r')
    (rows : List (List String)) (fs : List String) :
    (lineCh (f0 :: fields)).foldl csvStep ⟨rows, fs, [], CsvMode.normal⟩ =
      ⟨rows ++ [fs ++ (f0 :: fields).map List.asString], [], [], CsvMode.normal⟩ := by
  induction fields generalizing f0 fs with
  | nil =>
    rw [lineCh, List.foldl_append,
      foldl_quoteField f0 (h f0 (List.mem_cons_self f0 [])) rows fs]
    by_cases hq : f0.any csvSpecialChar
    · simp [hq, csvStep]
    · simp [hq, csvStep]
  | cons g rest ih =>
    rw [lineCh, List.foldl_append,
      foldl_quoteField f0 (h f0 (List.mem_cons_self f0 (g :: rest))) rows fs,
      List.foldl_cons]
    have hsep : ∀ m, m = CsvMode.normal ∨ m = CsvMode.quoteEnd →
        csvStep ⟨rows, fs, f0, m⟩ ',' =
          ⟨rows, fs ++ [f0.asString], [], CsvMode.normal⟩ := by
      rintro m (rfl | rfl) <;> simp [csvStep]
    rw [hsep _ (by by_cases hq : f0.any csvSpecialChar <;> simp [hq]),
      ih g (fun f hf => h f (List.mem_cons_of_mem f0 hf)) (fs ++ [f0.asString])]
    simp

/-- Reading back a serialized table appends all its rows. -/
theorem foldl_docCh (rowsCh : List (List (List Char)))
    (h : ∀ row ∈ rowsCh, row ≠ [] ∧ ∀ f ∈ row, ∀ c ∈ f, c ≠ '\"' ∧ c ≠ '\n' ∧ c ≠ '\r')
    (rows0 : List (List String)) :
    (docCh rowsCh).foldl csvStep ⟨rows0, [], [], CsvMode.normal⟩ =
      ⟨rows0 ++ rowsCh.map (fun row => row.map List.asString), [], [],
        CsvMode.normal⟩ := by
  induction rowsCh generalizing rows0 with
  | nil => simp [docCh]
  | cons row rest ih =>
    obtain ⟨hne, hclean⟩ := h row (List.mem_cons_self row rest)
    obtain ⟨f0, fs0, rfl⟩ := List.exists_cons_of_ne_nil hne
    rw [docCh, List.map_cons, List.flatten_cons, List.foldl_append,
      foldl_lineCh fs0 f0 hclean rows0 []]
    rw [show ((rest.map lineCh).flatten : List Char) = docCh rest from rfl,
      ih (fun r hr => h r (List.mem_cons_of_mem _ hr))]
    simp

/-- Parsing the serialized table of non-empty, quote/CR/LF-free rows of
cells recovers the cells exactly (cells may contain commas: those are
quoted by the writer and unquoted again by the reader). -/
theorem parse_csvTable (rows : List (List String))
    (hne : ∀ row ∈ rows, row ≠ [])
    (hclean : ∀ row ∈ rows, ∀ f ∈ row, ∀ c ∈ f.toList,
      c ≠ '\"' ∧ c ≠ '\n' ∧ c ≠ '\r') :
    parseCsv (csvTable rows) = rows := by
  unfold parseCsv csvTable csvInit
  rw [List.toList_asString, foldl_docCh]
  · have hmaps : rows.map (List.map (List.asString ∘ String.toList)) = rows := by
      have h1 : ∀ row ∈ rows, row.map (List.asString ∘ String.toList) = row := by
        intro row _
        exact (List.map_congr_left fun s _ => String.asString_toList s).trans
          (List.map_id row)
      exact (List.map_congr_left h1).trans (List.map_id rows)
    simp [finishCsv, hmaps]
  · intro row hrow
    obtain ⟨r, hr, rfl⟩ := List.mem_map.mp hrow
    refine ⟨?_, ?_⟩
    · intro hnil
      exact hne r hr (List.map_eq_nil_iff.mp hnil)
    · intro f hf c hc
      obtain ⟨s, hsr, rfl⟩ := List.mem_map.mp hf
      exact hclean r hr s hsr c hc

/-! ### Claim theorems for the Exporter -/

/-- C7. A filter request matching no record yields the empty frame (no
error), aggregating that empty frame yields no summary rows, and the raw
CSV export of it is the header line alone. -/
theorem empty_filter_pipeline (data : List JoinedRecord) (loc : String) (sd ed : Int)
    (h : ∀ r ∈ data, ¬((loc = "All" ∨ r.location = loc) ∧ sd ≤ r.date ∧ r.date ≤ ed)) :
    filter_data data loc sd ed = [] ∧
    aggregate (filter_data data loc sd ed) = [] ∧
    to_csv_raw (filter_data data loc sd ed) =
      "Patient_ID,Age,Symptoms,Location,Date,pH,Turbidity,Bacterial_Count,Risk\n" := by
  have h1 : filter_data data loc sd ed = [] := by
    rw [List.eq_nil_iff_forall_not_mem]
    intro r
    rw [mem_filter_data_iff]
    rintro ⟨hmem, hrest⟩
    exact h r hmem hrest
  refine ⟨h1, ?_, ?_⟩
  · rw [h1]
    simp [aggregate, groupKeys]
  · rw [h1]
    rfl

/-- Witness for C7: the `"Sikkim"` request of the spec's scenario against
sample data that has no `"Sikkim"` record. -/
theorem empty_filter_pipeline_witness :
    filter_data (makeData sampleHealth sampleWater) "Sikkim" 0 10 = [] ∧
    aggregate (filter_data (makeData sampleHealth sampleWater) "Sikkim" 0 10) = [] ∧
    to_csv_raw (filter_data (makeData sampleHealth sampleWater) "Sikkim" 0 10) =
      "Patient_ID,Age,Symptoms,Location,Date,pH,Turbidity,Bacterial_Count,Risk\n" :=
  empty_filter_pipeline (makeData sampleHealth sampleWater) "Sikkim" 0 10 (by decide)

/-- C8. Parsing the exported CSV back gives exactly the header row followed
by the cells of each input record — the same row count and field values,
including records whose Symptoms cell holds two comma-joined names (the
writer quotes such cells, so no column splits). The cleanliness hypothesis
(no quote/CR/LF inside cells) holds for every record the pipeline renders. -/
theorem csv_round_trip (df : List JoinedRecord)
    (hclean : ∀ r ∈ df, ∀ f ∈ recordFields r, ∀ c ∈ f.toList,
      c ≠ '\"' ∧ c ≠ '\n' ∧ c ≠ '\r') :
    parseCsv (to_csv_raw df) = rawHeader :: df.map recordFields := by
  unfold to_csv_raw
  refine parse_csvTable _ ?_ ?_
  · intro row hrow
    rcases List.mem_cons.mp hrow with rfl | hrow2
    · exact List.cons_ne_nil _ _
    · obtain ⟨r, hrr, rfl⟩ := List.mem_map.mp hrow2
      exact List.cons_ne_nil _ _
  · intro row hrow f hf c hc
    rcases List.mem_cons.mp hrow with rfl | hrow2
    · exact (by decide :
        ∀ f ∈ rawHeader, ∀ c ∈ f.toList, c ≠ '\"' ∧ c ≠ '\n' ∧ c ≠ '\r') f hf c hc
    · obtain ⟨r, hrr, rfl⟩ := List.mem_map.mp hrow2
      exact hclean r hrr f hf c hc

/-- Filtered sample rows for the round-trip witness; one record carries the
two comma-joined symptoms `"Diarrhea,Fever"` in its Symptoms cell. -/
def sampleFiltered : List JoinedRecord :=
  filter_data (makeData sampleHealth sampleWater) "All" 0 10

/-- Witness for C8 on sample rows including a two-symptom record. -/
theorem csv_round_trip_witness :
    parseCsv (to_csv_raw sampleFiltered) = rawHeader :: sampleFiltered.map recordFields :=
  csv_round_trip sampleFiltered (by decide)

end SmartHealth
